import Mathlib

/-!
Shallow embedding of the CryptoBet wagering engine, translated from
`src/server/routes.ts` (the Express route handlers) and `src/server/storage.ts`
(the in-memory ledger store).

Modelling conventions:
* Amounts that the TypeScript code holds as JS numbers or decimal strings are
  modelled as exact rationals.
* `Math.random()` draws and `Date.now()` clock readings are passed to each
  handler as explicit parameters (the draw already mapped to the value the
  handler consumes, e.g. the roulette wheel integer, the tower win flag, the
  raw crash-point power, the list of mine positions).
* Each handler returns the response (or the 400-level error it replies with)
  together with the post-call server state; an early `return` in the source
  leaves the global state untouched, which the embedding mirrors by returning
  the input state on every error path.
* Free-text record fields (`description`, `betChoice`, `result` labels) that no
  verified property inspects are elided from the ledger records; new records
  are prepended to the record lists.
-/

/-- Outcome field of a Bet record: the code stores the strings "win" / "loss". -/
inductive Outcome where
  | win
  | loss
deriving DecidableEq, Repr

/-- `type` field of a Transaction record: "deposit", "bet" or "win". -/
inductive TxType where
  | deposit
  | bet
  | win
deriving DecidableEq, Repr

/-- The 400-level error replies of the handlers, identified by their message
strings: `validationError` for a zod parse failure, `insufficientBalance` for
"Insufficient balance", `alreadyActive` for "You already have an active
crash/mines game", `noActiveGame` for "No active (crash/mines) game found",
`maxLevelReached` for "Maximum level reached", `alreadyCashedOut` for
"Already cashed out", `tileAlreadyRevealed` for "Tile already revealed", and
`nothingToCashout` for "Must reveal at least one tile before cashing out". -/
inductive ApiError where
  | validationError
  | insufficientBalance
  | alreadyActive
  | noActiveGame
  | maxLevelReached
  | alreadyCashedOut
  | tileAlreadyRevealed
  | nothingToCashout
deriving DecidableEq, Repr

/-- Result of `simulateCoinFlip`. -/
inductive CoinSide where
  | heads
  | tails
deriving DecidableEq, Repr

/-- The string the coin flip result is compared against. -/
def coinSideName : CoinSide → String
  | .heads => "heads"
  | .tails => "tails"

/-- Tower difficulty enum from `towerPlaySchema`. -/
inductive Difficulty where
  | easy
  | medium
  | hard
deriving DecidableEq, Repr

/-- Dice direction enum from `dicePlaySchema`. -/
inductive DiceDirection where
  | over
  | under
deriving DecidableEq, Repr

/-- A Bet record as written by `storage.createBet` (free-text fields elided). -/
structure BetRec where
  userId : String
  gameType : String
  betAmount : ℚ
  outcome : Outcome
  payout : ℚ
deriving DecidableEq, Repr

/-- A Transaction record as written by `storage.createTransaction`
(description elided). -/
structure TxRec where
  userId : String
  txType : TxType
  amount : ℚ
deriving DecidableEq, Repr

/-- The `TowerGame` session object of routes.ts. -/
structure TowerGame where
  userId : String
  betAmount : ℚ
  currentLevel : ℕ
  currentMultiplier : ℚ
  isActive : Bool
deriving DecidableEq, Repr

/-- The `CrashGame` session object of routes.ts.  `cashoutMultiplier` is
declared optional in the source and never assigned. -/
structure CrashGame where
  betAmount : ℚ
  startTime : ℚ
  crashPoint : ℚ
  isActive : Bool
  cashedOut : Bool
  cashoutMultiplier : Option ℚ := none
deriving DecidableEq, Repr

/-- The `MinesGame` session object of routes.ts.  `minePositions` is filled by
`Math.floor(Math.random() * gridSize)`, so every mine position is a natural
number; `revealedTiles` stores whatever numbers the reveal endpoint accepted,
which `minesRevealSchema` does not constrain to integers. -/
structure MinesGame where
  betAmount : ℚ
  mineCount : ℕ
  gridSize : ℕ
  minePositions : List ℕ
  revealedTiles : List ℚ
  isActive : Bool
  currentMultiplier : ℚ
deriving DecidableEq, Repr

/-- The server's mutable state: the balances map of the ledger store
(`none` when no balance row exists for the user; amounts' currency is the
constant "USDT" and is elided), the append-only bet and transaction records,
and the three per-user session maps `towerGames`, `crashGames`, `minesGames`. -/
structure ServerState where
  balances : String → Option ℚ
  bets : List BetRec
  txs : List TxRec
  towerGames : String → Option TowerGame
  crashGames : String → Option CrashGame
  minesGames : String → Option MinesGame

/-- Point update of a string-keyed map (`Map.set` / `Map.delete`). -/
def upd {α : Type} (f : String → Option α) (k : String) (v : Option α) :
    String → Option α :=
  fun u => if u = k then v else f u

/-- A server state with no users, records or sessions. -/
def emptyState : ServerState :=
  ⟨fun _ => none, [], [], fun _ => none, fun _ => none, fun _ => none⟩

/-- `RED_NUMBERS` of routes.ts. -/
def RED_NUMBERS : List ℕ :=
  [1, 3, 5, 7, 9, 12, 14, 16, 18, 19, 21, 23, 25, 27, 30, 32, 34, 36]

/-- `BLACK_NUMBERS` of routes.ts. -/
def BLACK_NUMBERS : List ℕ :=
  [2, 4, 6, 8, 10, 11, 13, 15, 17, 20, 22, 24, 26, 28, 29, 31, 33, 35]

/-- `isRedNumber` of routes.ts. -/
def isRedNumber (num : ℕ) : Bool := RED_NUMBERS.contains num

/-- `isBlackNumber` of routes.ts. -/
def isBlackNumber (num : ℕ) : Bool := BLACK_NUMBERS.contains num

/-- Digits-prefix accumulator used to model JS `parseInt`. -/
def parseDigits : List Char → ℕ → ℕ
  | [], acc => acc
  | c :: cs, acc =>
      if c.isDigit then parseDigits cs (acc * 10 + (c.toNat - 48)) else acc

/-- Whether the character list starts with a decimal digit. -/
def startsWithDigit : List Char → Bool
  | [] => false
  | c :: _ => c.isDigit

/-- JS `parseInt(s)` (radix 10): skip leading whitespace, read an optional
sign, then the longest digit prefix; `none` models `NaN` (no digits).  The
hexadecimal `0x` prefix case of JS is not modelled; the roulette inputs this
is applied to are decimal. -/
def jsParseInt (s : String) : Option ℤ :=
  let cs := s.toList.dropWhile Char.isWhitespace
  match cs with
  | '-' :: rest =>
      if startsWithDigit rest then some (-(parseDigits rest 0 : ℤ)) else none
  | '+' :: rest =>
      if startsWithDigit rest then some ((parseDigits rest 0 : ℤ)) else none
  | rest =>
      if startsWithDigit rest then some ((parseDigits rest 0 : ℤ)) else none

/-- `checkRouletteWin` of routes.ts. -/
def checkRouletteWin (betChoice : String) (result : ℕ) : Bool :=
  if betChoice = "red" then isRedNumber result
  else if betChoice = "black" then isBlackNumber result
  else if betChoice = "even" then result ≠ 0 && result % 2 = 0
  else if betChoice = "odd" then result ≠ 0 && result % 2 = 1
  else
    match jsParseInt betChoice with
    | some n => n = (result : ℤ)
    | none => false

/-- `calculateRoulettePayout` of routes.ts: 36x when `parseInt(betChoice)` is
a number, 2x otherwise. -/
def calculateRoulettePayout (betChoice : String) (betAmount : ℚ) : ℚ :=
  match jsParseInt betChoice with
  | some _ => betAmount * 36
  | none => betAmount * 2

/-- Per-difficulty configuration (`TOWER_DIFFICULTIES` of routes.ts). -/
structure DifficultyConfig where
  winChance : ℚ
  multiplier : ℚ
deriving DecidableEq, Repr

/-- `TOWER_DIFFICULTIES` of routes.ts. -/
def TOWER_DIFFICULTIES : Difficulty → DifficultyConfig
  | .easy => ⟨66/100, 3/2⟩
  | .medium => ⟨50/100, 2⟩
  | .hard => ⟨33/100, 3⟩

/-- `MAX_TOWER_LEVEL` of routes.ts. -/
def MAX_TOWER_LEVEL : ℕ := 8

/-- The set of bet amounts accepted by the zod `betAmount` validators of
`towerStartSchema`, `crashStartSchema`, `dicePlaySchema` and
`minesStartSchema`: the regex `\d+(\.\d{1,8})?` admits exactly the
non-negative decimals with at most 8 fractional digits, and the preprocess
plus refine steps then require `0 < v ≤ 1000000`. -/
def validBetAmount (q : ℚ) : Bool :=
  decide (0 < q) && decide (q ≤ 1000000) && ((q * 100000000).den == 1)

/-- Response of POST /api/bet. -/
structure PlaceBetResp where
  result : String
  outcome : Outcome
  payout : ℚ
deriving DecidableEq, Repr

/-- Response of GET /api/balance. -/
structure BalanceResp where
  amount : ℚ
deriving DecidableEq, Repr

/-- Response of POST /api/tower/start. -/
structure TowerStartResp where
  currentLevel : ℕ
  currentMultiplier : ℚ
  potentialPayout : ℚ
deriving DecidableEq, Repr

/-- Response of POST /api/tower/play. -/
inductive TowerPlayResp where
  | win (currentLevel : ℕ) (currentMultiplier : ℚ) (potentialPayout : ℚ)
      (maxLevel : Bool)
  | loss (currentLevel : ℕ) (lostAmount : ℚ)
deriving DecidableEq, Repr

/-- Response of POST /api/tower/cashout. -/
structure TowerCashoutResp where
  payout : ℚ
  level : ℕ
  multiplier : ℚ
deriving DecidableEq, Repr

/-- Response of POST /api/crash/start. -/
structure CrashStartResp where
  startTime : ℚ
  betAmount : ℚ
deriving DecidableEq, Repr

/-- Response of POST /api/crash/cashout. -/
inductive CrashCashoutResp where
  | crashed (crashPoint : ℚ) (payout : ℚ)
  | won (multiplier : ℚ) (payout : ℚ) (crashPoint : ℚ)
deriving DecidableEq, Repr

/-- Response of GET /api/crash/status. -/
inductive CrashStatusResp where
  | inactive
  | crashed (crashPoint : ℚ)
  | active (currentMultiplier : ℚ) (betAmount : ℚ) (potentialPayout : ℚ)
      (startTime : ℚ)
deriving DecidableEq, Repr

/-- Response of POST /api/dice/play. -/
structure DicePlayResp where
  roll : ℕ
  win : Bool
  payout : ℚ
  target : ℚ
  direction : DiceDirection
deriving DecidableEq, Repr

/-- Response of POST /api/mines/start. -/
structure MinesStartResp where
  gridSize : ℕ
  mineCount : ℕ
  betAmount : ℚ
deriving DecidableEq, Repr

/-- Response of POST /api/mines/reveal. -/
inductive MinesRevealResp where
  | mine (tileIndex : ℚ) (minePositions : List ℕ) (payout : ℚ)
  | safe (tileIndex : ℚ) (revealedTiles : List ℚ) (currentMultiplier : ℚ)
      (potentialPayout : ℚ)
deriving DecidableEq, Repr

/-- Response of POST /api/mines/cashout. -/
structure MinesCashoutResp where
  payout : ℚ
  multiplier : ℚ
deriving DecidableEq, Repr

/-- POST /api/bet (coin flip and roulette).  `betSchema` is the drizzle-zod
insert schema for the `bets` table with no extra refinement: `gameType`,
`betChoice` and `betAmount` are arbitrary strings, so the parsed `betAmount`
is any rational and no positivity check is performed.  `wheel` is the
`spinRouletteWheel()` draw, `flip` the `simulateCoinFlip()` draw.  `resolveBet` computes the
(result, outcome, payout) triple of the handler's two game branches. -/
def resolveBet (gameType betChoice : String) (betAmount : ℚ) (wheel : ℕ)
    (flip : CoinSide) : String × Outcome × ℚ :=
  if gameType = "roulette" then
    let isWin := checkRouletteWin betChoice wheel
    (toString wheel, if isWin then .win else .loss,
      if isWin then calculateRoulettePayout betChoice betAmount else 0)
  else
    let flipResult := coinSideName flip
    let outcome : Outcome := if flipResult = betChoice then .win else .loss
    (flipResult, outcome, if outcome = .win then betAmount * 2 else 0)

def placeBet (st : ServerState) (uid : String) (gameType : String)
    (betAmount : ℚ) (betChoice : String) (wheel : ℕ) (flip : CoinSide) :
    Except ApiError PlaceBetResp × ServerState :=
  match st.balances uid with
  | none => (.error .insufficientBalance, st)
  | some bal =>
    if bal < betAmount then (.error .insufficientBalance, st)
    else
      let res := resolveBet gameType betChoice betAmount wheel flip
      let st1 : ServerState :=
        { st with bets := ⟨uid, gameType, betAmount, res.2.1, res.2.2⟩ :: st.bets }
      let newBalance : ℚ :=
        if res.2.1 = .win then bal - betAmount + res.2.2 else bal - betAmount
      let st2 : ServerState :=
        { st1 with balances := upd st1.balances uid (some newBalance) }
      let st3 : ServerState :=
        { st2 with txs := ⟨uid, .bet, betAmount⟩ :: st2.txs }
      let st4 : ServerState :=
        if res.2.1 = .win then { st3 with txs := ⟨uid, .win, res.2.2⟩ :: st3.txs }
        else st3
      (.ok ⟨res.1, res.2.1, res.2.2⟩, st4)

/-- GET /api/balance: returns the stored balance, creating a zero-amount
record first when none exists (`storage.getBalance` alone returns an absent
value in that case; the route supplies the zero default).  The handler is a
total function: it always produces a response. -/
def getBalanceRoute (st : ServerState) (uid : String) :
    BalanceResp × ServerState :=
  match st.balances uid with
  | none =>
      let st1 : ServerState := { st with balances := upd st.balances uid (some 0) }
      (⟨0⟩, st1)
  | some b => (⟨b⟩, st)

/-- POST /api/tower/start: parse `towerStartSchema`, check the balance, then
"End any existing game" (delete it without rejecting), debit the bet, record
a bet transaction and create the fresh session at level 0, multiplier 1. -/
def towerStart (st : ServerState) (uid : String) (betAmount : ℚ) :
    Except ApiError TowerStartResp × ServerState :=
  if !validBetAmount betAmount then (.error .validationError, st)
  else
    match st.balances uid with
    | none => (.error .insufficientBalance, st)
    | some bal =>
      if bal < betAmount then (.error .insufficientBalance, st)
      else
        let st1 : ServerState :=
          { st with towerGames := upd st.towerGames uid none }
        let st2 : ServerState :=
          { st1 with balances := upd st1.balances uid (some (bal - betAmount)) }
        let st3 : ServerState :=
          { st2 with txs := ⟨uid, .bet, betAmount⟩ :: st2.txs }
        let game : TowerGame := ⟨uid, betAmount, 0, 1, true⟩
        let st4 : ServerState :=
          { st3 with towerGames := upd st3.towerGames uid (some game) }
        (.ok ⟨game.currentLevel, game.currentMultiplier,
              game.betAmount * game.currentMultiplier⟩, st4)

/-- POST /api/tower/play: guard on an active session and on the level cap;
`won` is the draw `Math.random() < difficultyConfig.winChance`.  A win bumps
the level and multiplies the running multiplier; a loss removes the session
and records a losing Bet with payout 0. -/
def towerPlay (st : ServerState) (uid : String) (difficulty : Difficulty)
    (won : Bool) : Except ApiError TowerPlayResp × ServerState :=
  match st.towerGames uid with
  | none => (.error .noActiveGame, st)
  | some game =>
    if !game.isActive then (.error .noActiveGame, st)
    else if MAX_TOWER_LEVEL ≤ game.currentLevel then (.error .maxLevelReached, st)
    else
      let difficultyConfig := TOWER_DIFFICULTIES difficulty
      if won then
        let game' : TowerGame :=
          { game with
              currentLevel := game.currentLevel + 1,
              currentMultiplier :=
                game.currentMultiplier * difficultyConfig.multiplier }
        let st1 : ServerState :=
          { st with towerGames := upd st.towerGames uid (some game') }
        (.ok (.win game'.currentLevel game'.currentMultiplier
              (game.betAmount * game'.currentMultiplier)
              (decide (MAX_TOWER_LEVEL ≤ game'.currentLevel))), st1)
      else
        let st1 : ServerState :=
          { st with towerGames := upd st.towerGames uid none }
        let st2 : ServerState :=
          { st1 with bets := ⟨uid, "tower", game.betAmount, .loss, 0⟩ :: st1.bets }
        (.ok (.loss game.currentLevel game.betAmount), st2)

/-- POST /api/tower/cashout: guard on an active session; snapshot the session,
delete it from the map, credit `betAmount * currentMultiplier` onto the
balance (zero default), and record a winning Bet plus a win Transaction. -/
def towerCashout (st : ServerState) (uid : String) :
    Except ApiError TowerCashoutResp × ServerState :=
  match st.towerGames uid with
  | none => (.error .noActiveGame, st)
  | some game =>
    if !game.isActive then (.error .noActiveGame, st)
    else
      let st1 : ServerState :=
        { st with towerGames := upd st.towerGames uid none }
      let payout := game.betAmount * game.currentMultiplier
      let bal := (st1.balances uid).getD 0
      let st2 : ServerState :=
        { st1 with balances := upd st1.balances uid (some (bal + payout)) }
      let st3 : ServerState :=
        { st2 with bets := ⟨uid, "tower", game.betAmount, .win, payout⟩ :: st2.bets }
      let st4 : ServerState :=
        { st3 with txs := ⟨uid, .win, payout⟩ :: st3.txs }
      (.ok ⟨payout, game.currentLevel, game.currentMultiplier⟩, st4)

/-- Sequence of winning tower plays: apply `towerPlay` with a winning draw for
each listed difficulty, stopping at the first error. -/
def towerWinsRun (uid : String) : ServerState → List Difficulty →
    Except ApiError Unit × ServerState
  | st, [] => (.ok (), st)
  | st, d :: ds =>
    match towerPlay st uid d true with
    | (.ok _, st') => towerWinsRun uid st' ds
    | (.error e, st') => (.error e, st')

/-- POST /api/crash/start: reject when an active crash session exists, parse
`crashStartSchema`, check the balance (zero default), debit the bet, record a
bet transaction, and create the session.  `rawCrash` is the draw
`Math.pow(Math.random(), -0.04)`; the handler clamps it into
`[1.01, 1000]`.  `now` is `Date.now()`. -/
def crashStart (st : ServerState) (uid : String) (betAmount : ℚ)
    (rawCrash : ℚ) (now : ℚ) : Except ApiError CrashStartResp × ServerState :=
  if ((st.crashGames uid).map (fun g => g.isActive)).getD false then
    (.error .alreadyActive, st)
  else if !validBetAmount betAmount then (.error .validationError, st)
  else
    let currentBalance := (st.balances uid).getD 0
    if currentBalance < betAmount then (.error .insufficientBalance, st)
    else
      let st1 : ServerState :=
        { st with balances := upd st.balances uid (some (currentBalance - betAmount)) }
      let st2 : ServerState :=
        { st1 with txs := ⟨uid, .bet, betAmount⟩ :: st1.txs }
      let crashPoint := max (101/100 : ℚ) rawCrash
      let game : CrashGame :=
        { betAmount := betAmount, startTime := now,
          crashPoint := min crashPoint 1000, isActive := true,
          cashedOut := false }
      let st3 : ServerState :=
        { st2 with crashGames := upd st2.crashGames uid (some game) }
      (.ok ⟨game.startTime, game.betAmount⟩, st3)

/-- POST /api/crash/cashout: guard on an active, not-yet-cashed-out session;
snapshot and delete it; compute the elapsed-time multiplier capped at the
crash point; if it reached the crash point record a losing Bet (payout 0),
otherwise credit `betAmount * multiplier` and record a winning Bet plus a win
Transaction. -/
def crashCashout (st : ServerState) (uid : String) (now : ℚ) :
    Except ApiError CrashCashoutResp × ServerState :=
  match st.crashGames uid with
  | none => (.error .noActiveGame, st)
  | some game =>
    if !game.isActive then (.error .noActiveGame, st)
    else if game.cashedOut then (.error .alreadyCashedOut, st)
    else
      let st1 : ServerState :=
        { st with crashGames := upd st.crashGames uid none }
      let elapsed := (now - game.startTime) / 1000
      let currentMultiplier := min (1 + elapsed * (1/10)) game.crashPoint
      if game.crashPoint ≤ currentMultiplier then
        let st2 : ServerState :=
          { st1 with bets := ⟨uid, "crash", game.betAmount, .loss, 0⟩ :: st1.bets }
        (.ok (.crashed game.crashPoint 0), st2)
      else
        let payout := game.betAmount * currentMultiplier
        let bal := (st1.balances uid).getD 0
        let st2 : ServerState :=
          { st1 with balances := upd st1.balances uid (some (bal + payout)) }
        let st3 : ServerState :=
          { st2 with bets := ⟨uid, "crash", game.betAmount, .win, payout⟩ :: st2.bets }
        let st4 : ServerState :=
          { st3 with txs := ⟨uid, .win, payout⟩ :: st3.txs }
        (.ok (.won currentMultiplier payout game.crashPoint), st4)

/-- GET /api/crash/status: with no active session reply `hasActiveGame:
false`; otherwise compute the uncapped elapsed-time multiplier
`1 + elapsed * 0.1`; if it reached the crash point, delete the session,
record a losing Bet with payout 0 and reply `crashed: true`; otherwise reply
with the live view and change nothing. -/
def crashStatus (st : ServerState) (uid : String) (now : ℚ) :
    CrashStatusResp × ServerState :=
  match st.crashGames uid with
  | none => (.inactive, st)
  | some game =>
    if !game.isActive then (.inactive, st)
    else
      let elapsed := (now - game.startTime) / 1000
      let currentMultiplier := 1 + elapsed * (1/10)
      if game.crashPoint ≤ currentMultiplier then
        let st1 : ServerState :=
          { st with crashGames := upd st.crashGames uid none }
        let st2 : ServerState :=
          { st1 with bets := ⟨uid, "crash", game.betAmount, .loss, 0⟩ :: st1.bets }
        (.crashed game.crashPoint, st2)
      else
        (.active currentMultiplier game.betAmount
          (game.betAmount * currentMultiplier) game.startTime, st)

/-- The acceptance condition of `dicePlaySchema`: a valid bet amount, `target`
in `[1, 99]`, and the refine step rejecting `over` with `target ≥ 99` and
`under` with `target ≤ 1` (the schema does not require `target` to be an
integer). -/
def diceValid (betAmount target : ℚ) (direction : DiceDirection) : Bool :=
  validBetAmount betAmount && decide (1 ≤ target) && decide (target ≤ 99) &&
    !(direction == .over && decide (99 ≤ target)) &&
    !(direction == .under && decide (target ≤ 1))

/-- POST /api/dice/play: parse `dicePlaySchema`, check the balance (zero
default), debit the bet and record a bet transaction; `roll` is the draw
`Math.floor(Math.random() * 100)`.  A win (`roll > target` for over,
`roll < target` for under) pays `betAmount * (0.98 / winChance)` as a second
balance write plus a win transaction; finally a Bet is recorded with payout 0
on a loss. -/
def dicePlay (st : ServerState) (uid : String) (betAmount target : ℚ)
    (direction : DiceDirection) (roll : ℕ) :
    Except ApiError DicePlayResp × ServerState :=
  if !diceValid betAmount target direction then (.error .validationError, st)
  else
    let currentBalance := (st.balances uid).getD 0
    if currentBalance < betAmount then (.error .insufficientBalance, st)
    else
      let newBalance := currentBalance - betAmount
      let st1 : ServerState :=
        { st with balances := upd st.balances uid (some newBalance) }
      let st2 : ServerState :=
        { st1 with txs := ⟨uid, .bet, betAmount⟩ :: st1.txs }
      let win : Bool :=
        match direction with
        | .over => decide (target < (roll : ℚ))
        | .under => decide ((roll : ℚ) < target)
      let winChance : ℚ :=
        match direction with
        | .over => (99 - target) / 100
        | .under => target / 100
      let payout : ℚ := if win then betAmount * ((49/50) / winChance) else 0
      let st3 : ServerState :=
        if win then
          let st3a : ServerState :=
            { st2 with balances := upd st2.balances uid (some (newBalance + payout)) }
          { st3a with txs := ⟨uid, .win, payout⟩ :: st3a.txs }
        else st2
      let st4 : ServerState :=
        { st3 with
            bets := ⟨uid, "dice", betAmount, if win then .win else .loss, payout⟩
              :: st3.bets }
      (.ok ⟨roll, win, payout, target, direction⟩, st4)

/-- POST /api/mines/start: reject when an active mines session exists, parse
`minesStartSchema`, check the balance (zero default), debit the bet, record a
bet transaction, and create the session on the 25-tile grid.
`minePositions` is the draw: the source fills it with distinct
`Math.floor(Math.random() * gridSize)` values until it holds `mineCount`
integers. -/
def minesStart (st : ServerState) (uid : String) (betAmount : ℚ)
    (mineCount : ℕ) (minePositions : List ℕ) :
    Except ApiError MinesStartResp × ServerState :=
  if ((st.minesGames uid).map (fun g => g.isActive)).getD false then
    (.error .alreadyActive, st)
  else if !(validBetAmount betAmount && decide (1 ≤ mineCount) &&
      decide (mineCount ≤ 24)) then (.error .validationError, st)
  else
    let currentBalance := (st.balances uid).getD 0
    if currentBalance < betAmount then (.error .insufficientBalance, st)
    else
      let st1 : ServerState :=
        { st with balances := upd st.balances uid (some (currentBalance - betAmount)) }
      let st2 : ServerState :=
        { st1 with txs := ⟨uid, .bet, betAmount⟩ :: st1.txs }
      let gridSize : ℕ := 25
      let game : MinesGame :=
        { betAmount := betAmount, mineCount := mineCount, gridSize := gridSize,
          minePositions := minePositions, revealedTiles := [],
          isActive := true, currentMultiplier := 1 }
      let st3 : ServerState :=
        { st2 with minesGames := upd st2.minesGames uid (some game) }
      (.ok ⟨gridSize, mineCount, betAmount⟩, st3)

/-- POST /api/mines/reveal: guard on an active session, parse
`minesRevealSchema` (`0 ≤ tileIndex ≤ 24`, with no integrality requirement),
reject an already-revealed tile; hitting a mine deletes the session and
records a losing Bet with payout 0; a safe reveal appends the tile and
recomputes the multiplier from scratch as
`(gridSize / (gridSize - mineCount)) ^ revealedCount`. -/
def minesReveal (st : ServerState) (uid : String) (tileIndex : ℚ) :
    Except ApiError MinesRevealResp × ServerState :=
  match st.minesGames uid with
  | none => (.error .noActiveGame, st)
  | some game =>
    if !game.isActive then (.error .noActiveGame, st)
    else if !(decide (0 ≤ tileIndex) && decide (tileIndex ≤ 24)) then
      (.error .validationError, st)
    else if game.revealedTiles.contains tileIndex then
      (.error .tileAlreadyRevealed, st)
    else if (game.minePositions.map (fun n => (n : ℚ))).contains tileIndex then
      let st1 : ServerState :=
        { st with minesGames := upd st.minesGames uid none }
      let st2 : ServerState :=
        { st1 with bets := ⟨uid, "mines", game.betAmount, .loss, 0⟩ :: st1.bets }
      (.ok (.mine tileIndex game.minePositions 0), st2)
    else
      let revealed := game.revealedTiles ++ [tileIndex]
      let mult : ℚ :=
        ((game.gridSize : ℚ) / ((game.gridSize : ℚ) - (game.mineCount : ℚ)))
          ^ revealed.length
      let game' : MinesGame :=
        { game with revealedTiles := revealed, currentMultiplier := mult }
      let st1 : ServerState :=
        { st with minesGames := upd st.minesGames uid (some game') }
      (.ok (.safe tileIndex revealed mult (game.betAmount * mult)), st1)

/-- Sequence of mine-free reveals: apply `minesReveal` for each listed tile,
returning the final state only when every reveal succeeded without hitting a
mine. -/
def minesSafeRun (uid : String) : ServerState → List ℚ → Option ServerState
  | st, [] => some st
  | st, t :: ts =>
    match minesReveal st uid t with
    | (.ok (.safe _ _ _ _), st') => minesSafeRun uid st' ts
    | _ => none

/-- POST /api/mines/cashout: guard on an active session with at least one
revealed tile; snapshot and delete the session, credit
`betAmount * currentMultiplier` (zero-default balance), and record a winning
Bet plus a win Transaction. -/
def minesCashout (st : ServerState) (uid : String) :
    Except ApiError MinesCashoutResp × ServerState :=
  match st.minesGames uid with
  | none => (.error .noActiveGame, st)
  | some game =>
    if !game.isActive then (.error .noActiveGame, st)
    else if game.revealedTiles.length = 0 then (.error .nothingToCashout, st)
    else
      let st1 : ServerState :=
        { st with minesGames := upd st.minesGames uid none }
      let payout := game.betAmount * game.currentMultiplier
      let bal := (st1.balances uid).getD 0
      let st2 : ServerState :=
        { st1 with balances := upd st1.balances uid (some (bal + payout)) }
      let st3 : ServerState :=
        { st2 with bets := ⟨uid, "mines", game.betAmount, .win, payout⟩ :: st2.bets }
      let st4 : ServerState :=
        { st3 with txs := ⟨uid, .win, payout⟩ :: st3.txs }
      (.ok ⟨payout, game.currentMultiplier⟩, st4)

/-- Concrete tower session fixture: level 2, multiplier 9/4, bet 10, active. -/
def exTowerGame : TowerGame := ⟨"u", 10, 2, 9/4, true⟩

/-- Concrete crash session fixture: bet 10, started at time 0, crash point 1.01. -/
def exCrashGame : CrashGame := ⟨10, 0, 101/100, true, false, none⟩

/-- Concrete mines session fixture: bet 10, 5 mines at tiles 0-4, tile 10
revealed, multiplier (25/20)^1. -/
def exMinesGame : MinesGame := ⟨10, 5, 25, [0, 1, 2, 3, 4], [10], true, 5/4⟩

/-- Server state with user "u" holding balance 100 and one active session of
each game type. -/
def exState : ServerState :=
  ⟨fun u => if u = "u" then some 100 else none, [], [],
   fun u => if u = "u" then some exTowerGame else none,
   fun u => if u = "u" then some exCrashGame else none,
   fun u => if u = "u" then some exMinesGame else none⟩

/-- Server state with user "u" holding balance 100 and no sessions. -/
def exState0 : ServerState :=
  ⟨fun u => if u = "u" then some 100 else none, [], [],
   fun _ => none, fun _ => none, fun _ => none⟩

/-- Server state with user "u" holding balance 0 and no sessions. -/
def exStateZ : ServerState :=
  ⟨fun u => if u = "u" then some 0 else none, [], [],
   fun _ => none, fun _ => none, fun _ => none⟩

theorem towerStart_ok_inv {st st1 : ServerState} {uid : String} {bet : ℚ}
    {r : TowerStartResp} (h : towerStart st uid bet = (.ok r, st1)) :
    ∃ b0, st.balances uid = some b0 ∧ validBetAmount bet = true ∧
      ¬ b0 < bet ∧ r = ⟨0, 1, bet * 1⟩ ∧
      st1 = { st with
        balances := upd st.balances uid (some (b0 - bet)),
        txs := ⟨uid, .bet, bet⟩ :: st.txs,
        towerGames :=
          upd (upd st.towerGames uid none) uid (some ⟨uid, bet, 0, 1, true⟩) } := by
  unfold towerStart at h
  split at h
  · simp at h
  next hv =>
    split at h
    · simp at h
    next b0 heq =>
      split at h
      · simp at h
      next hlt =>
        simp only [Prod.mk.injEq, Except.ok.injEq] at h
        obtain ⟨h1, h2⟩ := h
        exact ⟨b0, heq, by simpa using hv, hlt, h1.symm, h2.symm⟩

theorem towerPlay_win_inv {st st1 : ServerState} {uid : String}
    {d : Difficulty} {r : TowerPlayResp}
    (h : towerPlay st uid d true = (.ok r, st1)) :
    ∃ g, st.towerGames uid = some g ∧ g.isActive = true ∧
      g.currentLevel < MAX_TOWER_LEVEL ∧
      st1 = { st with towerGames := upd st.towerGames uid (some
        { g with currentLevel := g.currentLevel + 1,
                 currentMultiplier :=
                   g.currentMultiplier * (TOWER_DIFFICULTIES d).multiplier }) } := by
  unfold towerPlay at h
  split at h
  · simp at h
  next g heq =>
    split at h
    · simp at h
    next ha =>
      split at h
      · simp at h
      next hl =>
        rw [if_pos rfl] at h
        simp only [Prod.mk.injEq, Except.ok.injEq] at h
        refine ⟨g, heq, by simpa using ha, by omega, h.2.symm⟩

theorem towerPlay_loss_inv {st st1 : ServerState} {uid : String}
    {d : Difficulty} {r : TowerPlayResp}
    (h : towerPlay st uid d false = (.ok r, st1)) :
    ∃ g, st.towerGames uid = some g ∧ g.isActive = true ∧
      g.currentLevel < MAX_TOWER_LEVEL ∧
      r = .loss g.currentLevel g.betAmount ∧
      st1 = { st with
        towerGames := upd st.towerGames uid none
        bets := ⟨uid, "tower", g.betAmount, .loss, 0⟩ :: st.bets } := by
  unfold towerPlay at h
  split at h
  · simp at h
  next g heq =>
    split at h
    · simp at h
    next ha =>
      split at h
      · simp at h
      next hl =>
        rw [if_neg (by simp)] at h
        simp only [Prod.mk.injEq, Except.ok.injEq] at h
        refine ⟨g, heq, by simpa using ha, by omega, h.1.symm, h.2.symm⟩

theorem towerCashout_ok_inv {st st1 : ServerState} {uid : String}
    {r : TowerCashoutResp} (h : towerCashout st uid = (.ok r, st1)) :
    ∃ g, st.towerGames uid = some g ∧ g.isActive = true ∧
      r = ⟨g.betAmount * g.currentMultiplier, g.currentLevel,
        g.currentMultiplier⟩ ∧
      st1 = { st with
        towerGames := upd st.towerGames uid none
        balances := upd st.balances uid
          (some ((st.balances uid).getD 0 + g.betAmount * g.currentMultiplier))
        bets := ⟨uid, "tower", g.betAmount, .win,
          g.betAmount * g.currentMultiplier⟩ :: st.bets
        txs := ⟨uid, .win, g.betAmount * g.currentMultiplier⟩ :: st.txs } := by
  unfold towerCashout at h
  split at h
  · simp at h
  next g heq =>
    split at h
    · simp at h
    next ha =>
      simp only [Prod.mk.injEq, Except.ok.injEq] at h
      refine ⟨g, heq, by simpa using ha, h.1.symm, h.2.symm⟩

theorem crashCashout_ok_deletes {st st1 : ServerState} {uid : String}
    {now : ℚ} {r : CrashCashoutResp}
    (h : crashCashout st uid now = (.ok r, st1)) :
    st1.crashGames uid = none := by
  unfold crashCashout at h
  split at h
  · simp at h
  next g heq =>
    split at h
    · simp at h
    split at h
    · simp at h
    dsimp only at h
    split at h
    · simp only [Prod.mk.injEq, Except.ok.injEq] at h
      rw [← h.2]
      simp [upd]
    · simp only [Prod.mk.injEq, Except.ok.injEq] at h
      rw [← h.2]
      simp [upd]

theorem minesCashout_ok_deletes {st st1 : ServerState} {uid : String}
    {r : MinesCashoutResp} (h : minesCashout st uid = (.ok r, st1)) :
    st1.minesGames uid = none := by
  unfold minesCashout at h
  split at h
  · simp at h
  next g heq =>
    split at h
    · simp at h
    split at h
    · simp at h
    simp only [Prod.mk.injEq, Except.ok.injEq] at h
    rw [← h.2]
    simp [upd]

/-- C2: for each of the three session games, once `cashoutSession` has
succeeded, a second cashout call on the resulting state fails with the
no-active-session error and returns the state unchanged — the payout is
credited at most once and no second Bet is recorded. -/
theorem C2_cashout_idempotent (st : ServerState) (uid : String) :
    (∀ r st', towerCashout st uid = (.ok r, st') →
      towerCashout st' uid = (.error .noActiveGame, st')) ∧
    (∀ now r st', crashCashout st uid now = (.ok r, st') →
      ∀ now', crashCashout st' uid now' = (.error .noActiveGame, st')) ∧
    (∀ r st', minesCashout st uid = (.ok r, st') →
      minesCashout st' uid = (.error .noActiveGame, st')) := by
  refine ⟨?_, ?_, ?_⟩
  · intro r st' h
    obtain ⟨g, -, -, -, h4⟩ := towerCashout_ok_inv h
    subst h4
    unfold towerCashout
    simp [upd]
  · intro now r st' h now'
    have hd := crashCashout_ok_deletes h
    unfold crashCashout
    rw [hd]
  · intro r st' h
    have hd := minesCashout_ok_deletes h
    unfold minesCashout
    rw [hd]

/-- C2 witness: concrete double-cashout runs for the three games from
`exState`. -/
theorem C2_cashout_idempotent_witness :
    towerCashout (towerCashout exState "u").2 "u"
      = (.error .noActiveGame, (towerCashout exState "u").2) ∧
    crashCashout (crashCashout exState "u" 5000).2 "u" 6000
      = (.error .noActiveGame, (crashCashout exState "u" 5000).2) ∧
    minesCashout (minesCashout exState "u").2 "u"
      = (.error .noActiveGame, (minesCashout exState "u").2) := by
  refine ⟨?_, ?_, ?_⟩
  · have hr : (towerCashout exState "u").1 = .ok ⟨45/2, 2, 9/4⟩ := by
      norm_num [towerCashout, exState, exTowerGame, upd]
    exact (C2_cashout_idempotent exState "u").1 _ _ (by rw [← hr])
  · have hr : (crashCashout exState "u" 5000).1 = .ok (.crashed (101/100) 0) := by
      norm_num [crashCashout, exState, exCrashGame, upd]
    exact (C2_cashout_idempotent exState "u").2.1 5000 _ _ (by rw [← hr]) 6000
  · have hr : (minesCashout exState "u").1 = .ok ⟨25/2, 5/4⟩ := by
      norm_num [minesCashout, exState, exMinesGame, upd]
    exact (C2_cashout_idempotent exState "u").2.2 _ _ (by rw [← hr])

/-- C1 counterexample: user "u" has an Active tower session (level 2,
multiplier 9/4) in `exState`, yet POST /api/tower/start with bet 5 is not
rejected with a session-already-active error: it succeeds and installs a
fresh level-0 session in its place (debiting the new bet). -/
theorem C1_tower_start_ignores_active_session :
    (exState.towerGames "u").map (fun g => g.isActive) = some true ∧
    (towerStart exState "u" 5).1 = .ok ⟨0, 1, 5⟩ ∧
    (towerStart exState "u" 5).2.towerGames "u"
      = some ⟨"u", 5, 0, 1, true⟩ ∧
    (towerStart exState "u" 5).2.balances "u" = some 95 := by
  refine ⟨rfl, ?_, ?_, ?_⟩ <;>
    norm_num [towerStart, validBetAmount, exState, exTowerGame, upd]

/-- C1 amended: Crash and Mines reject `start` with the already-active error
while a session is Active, leaving the state unchanged; Tower instead deletes
any existing session and installs a fresh one, so at most one session per
(user, game type) exists after any start call. -/
theorem C1_start_while_active (st : ServerState) (uid : String)
    (bet raw now : ℚ) (m : ℕ) (pos : List ℕ)
    (gc : CrashGame) (gm : MinesGame) :
    (st.crashGames uid = some gc → gc.isActive = true →
      crashStart st uid bet raw now = (.error .alreadyActive, st)) ∧
    (st.minesGames uid = some gm → gm.isActive = true →
      minesStart st uid bet m pos = (.error .alreadyActive, st)) ∧
    (∀ r st', towerStart st uid bet = (.ok r, st') →
      st'.towerGames uid = some ⟨uid, bet, 0, 1, true⟩) := by
  refine ⟨?_, ?_, ?_⟩
  · intro h1 h2
    unfold crashStart
    rw [h1]
    simp [h2]
  · intro h1 h2
    unfold minesStart
    rw [h1]
    simp [h2]
  · intro r st' h
    obtain ⟨b0, -, -, -, -, h5⟩ := towerStart_ok_inv h
    subst h5
    simp [upd]

/-- C1 amended witness: at `exState` (all three sessions Active) crash and
mines starts are rejected and a tower start replaces the session. -/
theorem C1_start_while_active_witness :
    crashStart exState "u" 5 1 0 = (.error .alreadyActive, exState) ∧
    minesStart exState "u" 5 3 [0, 1, 2] = (.error .alreadyActive, exState) ∧
    (towerStart exState "u" 5).2.towerGames "u"
      = some ⟨"u", 5, 0, 1, true⟩ := by
  have h := C1_start_while_active exState "u" 5 1 0 3 [0, 1, 2]
    exCrashGame exMinesGame
  refine ⟨h.1 rfl rfl, h.2.1 rfl rfl, ?_⟩
  have hr : (towerStart exState "u" 5).1 = .ok ⟨0, 1, 5⟩ := by
    norm_num [towerStart, validBetAmount, exState, exTowerGame, upd]
  exact h.2.2 _ _ (by rw [← hr])

/-- C4: a GET /api/crash/status poll on an Active crash session whose uncapped
elapsed-time multiplier `1 + elapsed * 0.1` has reached the crash point
removes the session from the store, records a losing Bet with payout 0, and
replies `crashed: true`, leaving the balance untouched. -/
theorem C4_crash_status_poll_settles_loss (st : ServerState) (uid : String)
    (now : ℚ) (g : CrashGame)
    (h1 : st.crashGames uid = some g) (h2 : g.isActive = true)
    (h3 : g.crashPoint ≤ 1 + (now - g.startTime) / 1000 * (1/10)) :
    crashStatus st uid now =
      (.crashed g.crashPoint,
        { st with
          crashGames := upd st.crashGames uid none
          bets := ⟨uid, "crash", g.betAmount, .loss, 0⟩ :: st.bets }) := by
  unfold crashStatus
  rw [h1]
  have h3i : g.crashPoint ≤ 1 + (now - g.startTime) / 1000 * (10 : ℚ)⁻¹ := by
    rwa [← one_div]
  simp [h2, h3i]

/-- C4 witness: `exState` at time 5000 ms (elapsed 5 s, multiplier 1.5 ≥ crash
point 1.01). -/
theorem C4_crash_status_poll_settles_loss_witness :
    crashStatus exState "u" 5000 =
      (.crashed (101/100),
        { exState with
          crashGames := upd exState.crashGames "u" none
          bets := ⟨"u", "crash", 10, .loss, 0⟩ :: exState.bets }) := by
  exact C4_crash_status_poll_settles_loss exState "u" 5000 exCrashGame rfl rfl
    (by norm_num [exCrashGame])

/-- C9: GET /api/balance is a total operation: it always returns a response,
with amount 0 (and a freshly created zero balance row) when no balance record
exists for the user, and the stored amount (with the state unchanged)
otherwise. -/
theorem C9_getBalance_never_fails (st : ServerState) (uid : String) :
    ((getBalanceRoute st uid).1.amount = (st.balances uid).getD 0) ∧
    (st.balances uid = none →
      (getBalanceRoute st uid).1 = ⟨0⟩ ∧
      (getBalanceRoute st uid).2.balances uid = some 0) ∧
    (∀ b, st.balances uid = some b →
      (getBalanceRoute st uid).1 = ⟨b⟩ ∧ (getBalanceRoute st uid).2 = st) := by
  unfold getBalanceRoute
  cases hb : st.balances uid <;> simp [hb, upd]

/-- C9 witness: user "v" has no balance row in `exState0` and gets the zero
default (created in the store); user "u" gets the stored 100. -/
theorem C9_getBalance_never_fails_witness :
    (getBalanceRoute exState0 "v").1 = ⟨0⟩ ∧
    (getBalanceRoute exState0 "v").2.balances "v" = some 0 ∧
    (getBalanceRoute exState0 "u").1 = ⟨100⟩ ∧
    (getBalanceRoute exState0 "u").2 = exState0 := by
  have hv := (C9_getBalance_never_fails exState0 "v").2.1 rfl
  have hu := (C9_getBalance_never_fails exState0 "u").2.2 100 rfl
  exact ⟨hv.1, hv.2, hu.1, hu.2⟩

/-- C10: revealing a non-integer tile index in [0, 24] that is not already
revealed on an Active mines session is accepted by the schema and always
reported as safe (`hitMine = false`), because every mine position is an
integer; the tile is appended to the revealed list and the multiplier is
recomputed exactly as for any safe reveal. -/
theorem C10_mines_reveal_accepts_noninteger_tile (st : ServerState)
    (uid : String) (g : MinesGame) (t : ℚ)
    (h1 : st.minesGames uid = some g) (h2 : g.isActive = true)
    (h3 : 0 ≤ t) (h4 : t ≤ 24) (h5 : t.den ≠ 1)
    (h6 : t ∉ g.revealedTiles) :
    minesReveal st uid t =
      (.ok (.safe t (g.revealedTiles ++ [t])
          (((g.gridSize : ℚ) / ((g.gridSize : ℚ) - (g.mineCount : ℚ)))
            ^ (g.revealedTiles ++ [t]).length)
          (g.betAmount *
            (((g.gridSize : ℚ) / ((g.gridSize : ℚ) - (g.mineCount : ℚ)))
              ^ (g.revealedTiles ++ [t]).length))),
        { st with
          minesGames := upd st.minesGames uid (some
            { g with
              revealedTiles := g.revealedTiles ++ [t]
              currentMultiplier :=
                ((g.gridSize : ℚ) / ((g.gridSize : ℚ) - (g.mineCount : ℚ)))
                  ^ (g.revealedTiles ++ [t]).length }) }) := by
  have hm : ¬ ∃ a ∈ g.minePositions, t = (a : ℚ) := by
    rintro ⟨n, -, rfl⟩
    exact h5 (Rat.den_natCast n)
  unfold minesReveal
  rw [h1]
  simp [h2, h3, h4, h6, hm]

/-- C10 witness: revealing tile 7/2 on the mines session of `exState`
(5 mines at tiles 0-4, tile 10 already revealed). -/
theorem C10_mines_reveal_accepts_noninteger_tile_witness :
    minesReveal exState "u" (7/2) =
      (.ok (.safe (7/2) ([10, 7/2])
          (((25 : ℚ) / ((25 : ℚ) - (5 : ℚ))) ^ 2)
          (10 * (((25 : ℚ) / ((25 : ℚ) - (5 : ℚ))) ^ 2))),
        { exState with
          minesGames := upd exState.minesGames "u" (some
            { exMinesGame with
              revealedTiles := [10, 7/2]
              currentMultiplier :=
                ((25 : ℚ) / ((25 : ℚ) - (5 : ℚ))) ^ 2 }) }) := by
  have h := C10_mines_reveal_accepts_noninteger_tile exState "u" exMinesGame
    (7/2) rfl rfl (by norm_num) (by norm_num) (by norm_num)
    (by norm_num [exMinesGame])
  rw [h]
  norm_num [exMinesGame]

/-- C7 evidence: `dicePlaySchema` accepts `direction = over` with the
non-integer target 98.5 — although its own refine error message states
"Roll over must be ≤98" — and the play then proceeds: with roll 99 it is a
win paying `betAmount * (0.98 / ((99 - 98.5)/100)) = 196x`. -/
theorem C7_dice_accepts_target_between_98_and_99 :
    ¬ ((197 : ℚ)/2 ≤ 98) ∧
    diceValid 10 (197/2) .over = true ∧
    (dicePlay exState0 "u" 10 (197/2) .over 99).1
      = .ok ⟨99, true, 1960, 197/2, .over⟩ ∧
    (dicePlay exState0 "u" 10 (197/2) .over 99).2.balances "u"
      = some (100 - 10 + 1960) := by
  refine ⟨by norm_num, ?_, ?_, ?_⟩ <;>
    norm_num [dicePlay, diceValid, validBetAmount, exState0, upd]

/-- C8 evidence: `betSchema` (the plain drizzle-zod insert schema) imposes no
numeric constraint on `betAmount`, so POST /api/bet accepts a negative bet;
the `balance < betAmount` guard passes (0 < -50 is false), a winning coin
flip "pays" `-100`, and the balance of a user who held 0 becomes -50 —
negative. -/
theorem C8_negative_bet_drives_balance_negative :
    (placeBet exStateZ "u" "coinflip" (-50) "heads" 0 .heads).1
      = .ok ⟨"heads", .win, -100⟩ ∧
    (placeBet exStateZ "u" "coinflip" (-50) "heads" 0 .heads).2.balances "u"
      = some (-50) ∧
    ((-50 : ℚ) < 0) := by
  have hne : ("coinflip" : String) = "roulette" ↔ False := by
    simp only [iff_false]
    decide
  refine ⟨?_, ?_, by norm_num⟩ <;>
    norm_num [placeBet, resolveBet, coinSideName, exStateZ, upd, hne]

theorem upd_self {α : Type} (f : String → Option α) (k : String)
    (v : Option α) : upd f k v k = v := by
  simp [upd]

theorem resolveBet_loss_payout (gameType betChoice : String) (betAmount : ℚ)
    (wheel : ℕ) (flip : CoinSide) :
    (resolveBet gameType betChoice betAmount wheel flip).2.1 = .loss →
    (resolveBet gameType betChoice betAmount wheel flip).2.2 = 0 := by
  intro h
  unfold resolveBet at h ⊢
  dsimp only at h ⊢
  split_ifs at h ⊢ <;> simp_all

theorem towerWinsRun_ok_inv (uid : String) (bet c : ℚ) (ds : List Difficulty) :
    ∀ st st' : ServerState, st.balances uid = some c →
    (∃ g, st.towerGames uid = some g ∧ g.isActive = true ∧
      g.betAmount = bet) →
    towerWinsRun uid st ds = (.ok (), st') →
    st'.balances uid = some c ∧ st'.bets = st.bets ∧
      ∃ g, st'.towerGames uid = some g ∧ g.isActive = true ∧
        g.betAmount = bet := by
  induction ds with
  | nil =>
      intro st st' hb hg h
      simp only [towerWinsRun, Prod.mk.injEq] at h
      rw [← h.2]
      exact ⟨hb, rfl, hg⟩
  | cons d ds ih =>
      intro st st' hb hg h
      simp only [towerWinsRun] at h
      cases he : towerPlay st uid d true with
      | mk r1 st1 =>
        rw [he] at h
        cases r1 with
        | error e => simp at h
        | ok rr =>
          obtain ⟨g', hg', ha', hl', hst1⟩ := towerPlay_win_inv he
          obtain ⟨g, hgx, hax, hbx⟩ := hg
          rw [hg'] at hgx
          injection hgx with hgg
          subst hgg
          subst hst1
          dsimp only at h
          exact ih
            { st with towerGames := upd st.towerGames uid (some
                { g' with
                  currentLevel := g'.currentLevel + 1
                  currentMultiplier :=
                    g'.currentMultiplier * (TOWER_DIFFICULTIES d).multiplier }) }
            st' hb ⟨_, upd_self st.towerGames uid _, hax, hbx⟩ h

theorem towerWinsRun_replicate_mult (uid : String) (d : Difficulty) :
    ∀ (k : ℕ) (st : ServerState) (g : TowerGame),
    st.towerGames uid = some g → g.isActive = true →
    (towerWinsRun uid st (List.replicate k d)).1 = .ok () →
    ((towerWinsRun uid st (List.replicate k d)).2.towerGames uid).map
        (fun g2 => g2.currentMultiplier)
      = some (g.currentMultiplier * (TOWER_DIFFICULTIES d).multiplier ^ k) := by
  intro k
  induction k with
  | zero =>
      intro st g hg ha h
      simp only [List.replicate, towerWinsRun]
      rw [hg]
      simp
  | succ k ih =>
      intro st g hg ha h
      simp only [List.replicate_succ, towerWinsRun] at h ⊢
      cases he : towerPlay st uid d true with
      | mk r1 st1 =>
        rw [he] at h
        cases r1 with
        | error e => simp at h
        | ok rr =>
          obtain ⟨g', hg', ha', hl', hst1⟩ := towerPlay_win_inv he
          rw [hg] at hg'
          injection hg' with hgg
          subst hgg
          subst hst1
          dsimp only at h ⊢
          have hrec := ih
            { st with towerGames := upd st.towerGames uid (some
                { g with
                  currentLevel := g.currentLevel + 1
                  currentMultiplier :=
                    g.currentMultiplier * (TOWER_DIFFICULTIES d).multiplier }) }
            { g with
              currentLevel := g.currentLevel + 1
              currentMultiplier :=
                g.currentMultiplier * (TOWER_DIFFICULTIES d).multiplier }
            (upd_self _ _ _) ha h
          rw [hrec]
          congr 1
          dsimp only
          ring

/-- C6: a tower session started at multiplier 1 that wins `k` consecutive
levels, all at the same difficulty `d`, has current multiplier exactly
`baseMultiplier(d) ^ k` (easy 1.5, medium 2.0, hard 3.0). -/
theorem C6_tower_multiplier_power (st st1 : ServerState) (uid : String)
    (bet : ℚ) (d : Difficulty) (k : ℕ) (r : TowerStartResp)
    (h1 : towerStart st uid bet = (.ok r, st1))
    (h2 : (towerWinsRun uid st1 (List.replicate k d)).1 = .ok ()) :
    ((towerWinsRun uid st1 (List.replicate k d)).2.towerGames uid).map
        (fun g => g.currentMultiplier)
      = some ((TOWER_DIFFICULTIES d).multiplier ^ k) := by
  obtain ⟨b0, -, -, -, -, hst1⟩ := towerStart_ok_inv h1
  subst hst1
  have hrec := towerWinsRun_replicate_mult uid d k _ _ (upd_self _ _ _) rfl h2
  simpa using hrec

/-- C6 witness: start with bet 10 and win twice at easy; the multiplier is
`1.5 ^ 2 = 2.25`. -/
theorem C6_tower_multiplier_power_witness :
    ((towerWinsRun "u" (towerStart exState0 "u" 10).2
        (List.replicate 2 .easy)).2.towerGames "u").map
        (fun g => g.currentMultiplier)
      = some ((TOWER_DIFFICULTIES .easy).multiplier ^ 2) := by
  have hr : (towerStart exState0 "u" 10).1 = .ok ⟨0, 1, 10⟩ := by
    norm_num [towerStart, validBetAmount, exState0, upd]
  exact C6_tower_multiplier_power exState0 _ "u" 10 .easy 2 ⟨0, 1, 10⟩
    (by rw [← hr])
    (by norm_num [towerWinsRun, towerPlay, towerStart, validBetAmount,
      TOWER_DIFFICULTIES, MAX_TOWER_LEVEL, exState0, upd, List.replicate])

theorem minesStart_ok_inv {st st1 : ServerState} {uid : String} {bet : ℚ}
    {m : ℕ} {pos : List ℕ} {r : MinesStartResp}
    (h : minesStart st uid bet m pos = (.ok r, st1)) :
    r = ⟨25, m, bet⟩ ∧
    st1 = { st with
      balances := upd st.balances uid (some ((st.balances uid).getD 0 - bet))
      txs := ⟨uid, .bet, bet⟩ :: st.txs
      minesGames :=
        upd st.minesGames uid (some ⟨bet, m, 25, pos, [], true, 1⟩) } := by
  unfold minesStart at h
  split at h
  · simp at h
  split at h
  · simp at h
  dsimp only at h
  split at h
  · simp at h
  simp only [Prod.mk.injEq, Except.ok.injEq] at h
  exact ⟨h.1.symm, h.2.symm⟩

theorem minesReveal_safe_inv {st st1 : ServerState} {uid : String}
    {t a c pp : ℚ} {b : List ℚ}
    (h : minesReveal st uid t = (.ok (.safe a b c pp), st1)) :
    ∃ g, st.minesGames uid = some g ∧ g.isActive = true ∧
      st1 = { st with minesGames := upd st.minesGames uid (some
        { g with
          revealedTiles := g.revealedTiles ++ [t]
          currentMultiplier :=
            ((g.gridSize : ℚ) / ((g.gridSize : ℚ) - (g.mineCount : ℚ)))
              ^ (g.revealedTiles ++ [t]).length }) } := by
  unfold minesReveal at h
  split at h
  · simp at h
  next g heq =>
    split at h
    · simp at h
    next ha =>
      split at h
      · simp at h
      split at h
      · simp at h
      split at h
      · simp at h
      dsimp only at h
      simp only [Prod.mk.injEq, Except.ok.injEq] at h
      exact ⟨g, heq, by simpa using ha, h.2.symm⟩

theorem minesSafeRun_inv (uid : String) (m : ℕ) (ts : List ℚ) :
    ∀ (st st' : ServerState) (g : MinesGame),
    st.minesGames uid = some g → g.isActive = true →
    g.gridSize = 25 → g.mineCount = m →
    g.currentMultiplier
      = ((25 : ℚ) / ((25 : ℚ) - (m : ℚ))) ^ g.revealedTiles.length →
    minesSafeRun uid st ts = some st' →
    ∃ g', st'.minesGames uid = some g' ∧ g'.isActive = true ∧
      g'.gridSize = 25 ∧ g'.mineCount = m ∧
      g'.revealedTiles.length = g.revealedTiles.length + ts.length ∧
      g'.currentMultiplier
        = ((25 : ℚ) / ((25 : ℚ) - (m : ℚ))) ^ g'.revealedTiles.length := by
  induction ts with
  | nil =>
      intro st st' g h1 h2 h3 h4 h5 h6
      simp only [minesSafeRun, Option.some.injEq] at h6
      subst h6
      exact ⟨g, h1, h2, h3, h4, by simp, h5⟩
  | cons t ts ih =>
      intro st st' g h1 h2 h3 h4 h5 h6
      simp only [minesSafeRun] at h6
      cases he : minesReveal st uid t with
      | mk r1 st1 =>
        rw [he] at h6
        cases r1 with
        | error e => simp at h6
        | ok rr =>
          cases rr with
          | mine x y z => simp at h6
          | safe a b c pp =>
            dsimp only at h6
            obtain ⟨g0, hg0, ha0, hst1⟩ := minesReveal_safe_inv he
            rw [h1] at hg0
            injection hg0 with hgg
            subst hgg
            subst hst1
            have hrec := ih
              { st with minesGames := upd st.minesGames uid (some
                  { g with
                    revealedTiles := g.revealedTiles ++ [t]
                    currentMultiplier :=
                      ((g.gridSize : ℚ) /
                          ((g.gridSize : ℚ) - (g.mineCount : ℚ)))
                        ^ (g.revealedTiles ++ [t]).length }) }
              st'
              { g with
                revealedTiles := g.revealedTiles ++ [t]
                currentMultiplier :=
                  ((g.gridSize : ℚ) / ((g.gridSize : ℚ) - (g.mineCount : ℚ)))
                    ^ (g.revealedTiles ++ [t]).length }
              (upd_self _ _ _) h2 h3 h4 (by simp [h3, h4]) h6
            obtain ⟨g', hg', ha', hgs', hmc', hlen', hmul'⟩ := hrec
            refine ⟨g', hg', ha', hgs', hmc', ?_, hmul'⟩
            simp only [List.length_append, List.length_cons,
              List.length_nil] at hlen' ⊢
            omega

/-- C5: after a mines start with `m` mines on the 25-tile grid followed by
any sequence of safe reveals `ts`, the session's current multiplier is
exactly `(25 / (25 - m)) ^ k` where `k` is the number of revealed tiles —
recomputed from the revealed count, not compounded. -/
theorem C5_mines_multiplier_recomputed (st st1 st2 : ServerState)
    (uid : String) (bet : ℚ) (m : ℕ) (pos : List ℕ) (ts : List ℚ)
    (r : MinesStartResp)
    (h1 : minesStart st uid bet m pos = (.ok r, st1))
    (h2 : minesSafeRun uid st1 ts = some st2) :
    ((st2.minesGames uid).map
        (fun g => (g.revealedTiles.length, g.currentMultiplier)))
      = some (ts.length, ((25 : ℚ) / ((25 : ℚ) - (m : ℚ))) ^ ts.length) := by
  obtain ⟨hr, hst1⟩ := minesStart_ok_inv h1
  subst hst1
  have hrec := minesSafeRun_inv uid m ts _ st2 ⟨bet, m, 25, pos, [], true, 1⟩
    (upd_self _ _ _) rfl rfl rfl (by simp) h2
  obtain ⟨g', hg', ha', hgs', hmc', hlen', hmul'⟩ := hrec
  rw [hg']
  have hlen2 : g'.revealedTiles.length = ts.length := by
    simp only [List.length_nil] at hlen'
    omega
  simp [hmul', hlen2]

/-- C5 witness: start with 5 mines at tiles 0-4 and safely reveal tile 12;
the revealed count is 1 and the multiplier is `(25/20)^1`. -/
theorem C5_mines_multiplier_recomputed_witness :
    (((minesSafeRun "u" (minesStart exState0 "u" 10 5 [0, 1, 2, 3, 4]).2
          [12]).getD emptyState).minesGames "u").map
        (fun g => (g.revealedTiles.length, g.currentMultiplier))
      = some (1, ((25 : ℚ) / ((25 : ℚ) - ((5 : ℕ) : ℚ))) ^ 1) := by
  have hr : (minesStart exState0 "u" 10 5 [0, 1, 2, 3, 4]).1
      = .ok ⟨25, 5, 10⟩ := by
    norm_num [minesStart, validBetAmount, exState0, upd]
  have hs : (minesSafeRun "u" (minesStart exState0 "u" 10 5 [0, 1, 2, 3, 4]).2
      [12]).isSome = true := by
    norm_num [minesSafeRun, minesReveal, minesStart, validBetAmount,
      exState0, upd]
  obtain ⟨x, hx⟩ := Option.isSome_iff_exists.1 hs
  have h2 : minesSafeRun "u" (minesStart exState0 "u" 10 5 [0, 1, 2, 3, 4]).2
      [12] = some ((minesSafeRun "u"
        (minesStart exState0 "u" 10 5 [0, 1, 2, 3, 4]).2 [12]).getD
        emptyState) := by
    rw [hx]
    simp
  have hlen : (1 : ℕ) = ([(12 : ℚ)]).length := rfl
  exact hlen ▸ C5_mines_multiplier_recomputed exState0 _ _ "u" 10 5
    [0, 1, 2, 3, 4] [12] ⟨25, 5, 10⟩ (by rw [← hr]) h2

theorem crashStart_ok_inv {st st1 : ServerState} {uid : String}
    {bet raw now0 : ℚ} {r : CrashStartResp}
    (h : crashStart st uid bet raw now0 = (.ok r, st1)) :
    r = ⟨now0, bet⟩ ∧
    st1 = { st with
      balances := upd st.balances uid (some ((st.balances uid).getD 0 - bet))
      txs := ⟨uid, .bet, bet⟩ :: st.txs
      crashGames := upd st.crashGames uid (some
        ⟨bet, now0, min (max (101/100) raw) 1000, true, false, none⟩) } := by
  unfold crashStart at h
  split at h
  · simp at h
  split at h
  · simp at h
  dsimp only at h
  split at h
  · simp at h
  simp only [Prod.mk.injEq, Except.ok.injEq] at h
  exact ⟨h.1.symm, h.2.symm⟩

theorem crashStatus_active_eq {st st2 : ServerState} {uid : String}
    {now m ba pp stt : ℚ}
    (h : crashStatus st uid now = (.active m ba pp stt, st2)) : st2 = st := by
  unfold crashStatus at h
  split at h
  · simp at h
  next g heq =>
    split at h
    · simp at h
    dsimp only at h
    split at h
    · simp at h
    simp only [Prod.mk.injEq] at h
    exact h.2.symm

theorem crashStatus_crashed_inv {st st2 : ServerState} {uid : String}
    {now cp : ℚ}
    (h : crashStatus st uid now = (.crashed cp, st2)) :
    ∃ g, st.crashGames uid = some g ∧ g.isActive = true ∧
      cp = g.crashPoint ∧
      st2 = { st with
        crashGames := upd st.crashGames uid none
        bets := ⟨uid, "crash", g.betAmount, .loss, 0⟩ :: st.bets } := by
  unfold crashStatus at h
  split at h
  · simp at h
  next g heq =>
    split at h
    · simp at h
    next ha =>
      dsimp only at h
      split at h
      · simp only [Prod.mk.injEq, CrashStatusResp.crashed.injEq] at h
        exact ⟨g, heq, by simpa using ha, h.1.symm, h.2.symm⟩
      · simp at h

theorem crashCashout_crashed_inv {st st2 : ServerState} {uid : String}
    {now cp p : ℚ}
    (h : crashCashout st uid now = (.ok (.crashed cp p), st2)) :
    ∃ g, st.crashGames uid = some g ∧ g.isActive = true ∧
      cp = g.crashPoint ∧ p = 0 ∧
      st2 = { st with
        crashGames := upd st.crashGames uid none
        bets := ⟨uid, "crash", g.betAmount, .loss, 0⟩ :: st.bets } := by
  unfold crashCashout at h
  split at h
  · simp at h
  next g heq =>
    split at h
    · simp at h
    next ha =>
      split at h
      · simp at h
      dsimp only at h
      split at h
      · simp only [Prod.mk.injEq, Except.ok.injEq,
          CrashCashoutResp.crashed.injEq] at h
        exact ⟨g, heq, by simpa using ha, h.1.1.symm, h.1.2.symm, h.2.symm⟩
      · simp at h

theorem crashCashout_won_inv {st st2 : ServerState} {uid : String}
    {now m p cp : ℚ}
    (h : crashCashout st uid now = (.ok (.won m p cp), st2)) :
    ∃ g, st.crashGames uid = some g ∧ g.isActive = true ∧
      m = min (1 + (now - g.startTime) / 1000 * (1/10)) g.crashPoint ∧
      p = g.betAmount * m ∧ cp = g.crashPoint ∧
      st2 = { st with
        crashGames := upd st.crashGames uid none
        balances := upd st.balances uid
          (some ((st.balances uid).getD 0 + g.betAmount * m))
        bets := ⟨uid, "crash", g.betAmount, .win, g.betAmount * m⟩ :: st.bets
        txs := ⟨uid, .win, g.betAmount * m⟩ :: st.txs } := by
  unfold crashCashout at h
  split at h
  · simp at h
  next g heq =>
    split at h
    · simp at h
    next ha =>
      split at h
      · simp at h
      dsimp only at h
      split at h
      · simp at h
      · simp only [Prod.mk.injEq, Except.ok.injEq,
          CrashCashoutResp.won.injEq] at h
        obtain ⟨⟨hm, hp, hcp⟩, hst⟩ := h
        refine ⟨g, heq, by simpa using ha, hm.symm, ?_, hcp.symm, ?_⟩
        · rw [← hp, hm]
        · rw [← hst, hm]

theorem minesReveal_mine_inv {st st3 : ServerState} {uid : String}
    {t x z : ℚ} {y : List ℕ}
    (h : minesReveal st uid t = (.ok (.mine x y z), st3)) :
    ∃ g, st.minesGames uid = some g ∧ g.isActive = true ∧
      st3 = { st with
        minesGames := upd st.minesGames uid none
        bets := ⟨uid, "mines", g.betAmount, .loss, 0⟩ :: st.bets } := by
  unfold minesReveal at h
  split at h
  · simp at h
  next g heq =>
    split at h
    · simp at h
    next ha =>
      split at h
      · simp at h
      split at h
      · simp at h
      split at h
      · simp only [Prod.mk.injEq, Except.ok.injEq] at h
        exact ⟨g, heq, by simpa using ha, h.2.symm⟩
      · dsimp only at h
        simp at h

theorem minesCashout_ok_inv {st st3 : ServerState} {uid : String}
    {r : MinesCashoutResp} (h : minesCashout st uid = (.ok r, st3)) :
    ∃ g, st.minesGames uid = some g ∧ g.isActive = true ∧
      r = ⟨g.betAmount * g.currentMultiplier, g.currentMultiplier⟩ ∧
      st3 = { st with
        minesGames := upd st.minesGames uid none
        balances := upd st.balances uid
          (some ((st.balances uid).getD 0 +
            g.betAmount * g.currentMultiplier))
        bets := ⟨uid, "mines", g.betAmount, .win,
          g.betAmount * g.currentMultiplier⟩ :: st.bets
        txs := ⟨uid, .win, g.betAmount * g.currentMultiplier⟩ :: st.txs } := by
  unfold minesCashout at h
  split at h
  · simp at h
  next g heq =>
    split at h
    · simp at h
    next ha =>
      split at h
      · simp at h
      simp only [Prod.mk.injEq, Except.ok.injEq] at h
      exact ⟨g, heq, by simpa using ha, h.1.symm, h.2.symm⟩

theorem minesSafeRun_ledger_inv (uid : String) (bet : ℚ) (ts : List ℚ) :
    ∀ (st st' : ServerState) (g : MinesGame),
    st.minesGames uid = some g → g.isActive = true → g.betAmount = bet →
    minesSafeRun uid st ts = some st' →
    st'.balances = st.balances ∧ st'.bets = st.bets ∧
      ∃ g', st'.minesGames uid = some g' ∧ g'.isActive = true ∧
        g'.betAmount = bet := by
  induction ts with
  | nil =>
      intro st st' g h1 h2 h3 h6
      simp only [minesSafeRun, Option.some.injEq] at h6
      subst h6
      exact ⟨rfl, rfl, g, h1, h2, h3⟩
  | cons t ts ih =>
      intro st st' g h1 h2 h3 h6
      simp only [minesSafeRun] at h6
      cases he : minesReveal st uid t with
      | mk r1 st1 =>
        rw [he] at h6
        cases r1 with
        | error e => simp at h6
        | ok rr =>
          cases rr with
          | mine x y z => simp at h6
          | safe a b c pp =>
            dsimp only at h6
            obtain ⟨g0, hg0, ha0, hst1⟩ := minesReveal_safe_inv he
            rw [h1] at hg0
            injection hg0 with hgg
            subst hgg
            subst hst1
            exact ih
              { st with minesGames := upd st.minesGames uid (some
                  { g with
                    revealedTiles := g.revealedTiles ++ [t]
                    currentMultiplier :=
                      ((g.gridSize : ℚ) /
                          ((g.gridSize : ℚ) - (g.mineCount : ℚ)))
                        ^ (g.revealedTiles ++ [t]).length }) }
              st'
              { g with
                revealedTiles := g.revealedTiles ++ [t]
                currentMultiplier :=
                  ((g.gridSize : ℚ) / ((g.gridSize : ℚ) - (g.mineCount : ℚ)))
                    ^ (g.revealedTiles ++ [t]).length }
              (upd_self _ _ _) h2 h3 h6

/-- C3: settlement balance identity for every resolved wager in every game.
For a single-shot bet (coin flip / roulette), for a dice play, for a tower
session followed from start through any number of winning levels to its
termination (loss or cashout), for a crash session followed from start to its
termination (cashout win, cashout after the crash point, or a status poll
discovering the crash — non-settling status polls are shown to change
nothing), and for a mines session followed from start through any sequence
of safe reveals to its termination (mine hit or cashout): the balance after
settlement equals the balance before the wager minus the bet amount plus the
recorded payout, the Bet record carries that payout and outcome, and the
payout is 0 whenever the outcome is a loss. -/
theorem C3_settlement_balance_identity (st : ServerState) (uid : String)
    (b0 : ℚ) :
    (∀ gameType betAmount betChoice wheel flip r st',
      st.balances uid = some b0 →
      placeBet st uid gameType betAmount betChoice wheel flip = (.ok r, st') →
      st'.balances uid = some (b0 - betAmount + r.payout) ∧
      st'.bets.head? = some ⟨uid, gameType, betAmount, r.outcome, r.payout⟩ ∧
      (r.outcome = .loss → r.payout = 0)) ∧
    (∀ betAmount target direction roll r st',
      st.balances uid = some b0 →
      dicePlay st uid betAmount target direction roll = (.ok r, st') →
      st'.balances uid = some (b0 - betAmount + r.payout) ∧
      st'.bets.head? = some ⟨uid, "dice", betAmount,
        if r.win then .win else .loss, r.payout⟩ ∧
      (r.win = false → r.payout = 0)) ∧
    (∀ betAmount r0 st1 ds st2,
      st.balances uid = some b0 →
      towerStart st uid betAmount = (.ok r0, st1) →
      towerWinsRun uid st1 ds = (.ok (), st2) →
      (∀ d r st3, towerPlay st2 uid d false = (.ok r, st3) →
        st3.balances uid = some (b0 - betAmount) ∧
        st3.bets.head? = some ⟨uid, "tower", betAmount, .loss, 0⟩) ∧
      (∀ r st3, towerCashout st2 uid = (.ok r, st3) →
        st3.balances uid = some (b0 - betAmount + r.payout) ∧
        st3.bets.head? = some ⟨uid, "tower", betAmount, .win, r.payout⟩)) ∧
    (∀ betAmount rawCrash now0 r0 st1,
      st.balances uid = some b0 →
      crashStart st uid betAmount rawCrash now0 = (.ok r0, st1) →
      (∀ now m ba pp stt st2,
        crashStatus st1 uid now = (.active m ba pp stt, st2) → st2 = st1) ∧
      (∀ now cp p st2,
        crashCashout st1 uid now = (.ok (.crashed cp p), st2) →
        p = 0 ∧ st2.balances uid = some (b0 - betAmount) ∧
        st2.bets.head? = some ⟨uid, "crash", betAmount, .loss, 0⟩) ∧
      (∀ now m p cp st2,
        crashCashout st1 uid now = (.ok (.won m p cp), st2) →
        st2.balances uid = some (b0 - betAmount + p) ∧
        st2.bets.head? = some ⟨uid, "crash", betAmount, .win, p⟩) ∧
      (∀ now cp st2,
        crashStatus st1 uid now = (.crashed cp, st2) →
        st2.balances uid = some (b0 - betAmount) ∧
        st2.bets.head? = some ⟨uid, "crash", betAmount, .loss, 0⟩)) ∧
    (∀ betAmount mc pos r0 st1 ts st2,
      st.balances uid = some b0 →
      minesStart st uid betAmount mc pos = (.ok r0, st1) →
      minesSafeRun uid st1 ts = some st2 →
      st2.balances uid = some (b0 - betAmount) ∧
      st2.bets = st.bets ∧
      (∀ t x y z st3,
        minesReveal st2 uid t = (.ok (.mine x y z), st3) →
        st3.balances uid = some (b0 - betAmount) ∧
        st3.bets.head? = some ⟨uid, "mines", betAmount, .loss, 0⟩) ∧
      (∀ r st3,
        minesCashout st2 uid = (.ok r, st3) →
        st3.balances uid = some (b0 - betAmount + r.payout) ∧
        st3.bets.head? = some ⟨uid, "mines", betAmount, .win, r.payout⟩)) := by
  refine ⟨?_, ?_, ?_, ?_, ?_⟩
  · intro gameType betAmount betChoice wheel flip r st' hb h
    unfold placeBet at h
    split at h
    next heq => rw [hb] at heq; exact absurd heq (by simp)
    next bal heq =>
      rw [hb] at heq
      injection heq with heqb
      subst heqb
      split at h
      · simp at h
      next hlt =>
        dsimp only at h
        simp only [Prod.mk.injEq, Except.ok.injEq] at h
        obtain ⟨h1, h2⟩ := h
        subst h1
        subst h2
        refine ⟨?_, ?_, ?_⟩
        · by_cases hw :
            (resolveBet gameType betChoice betAmount wheel flip).2.1 = .win
          · simp [hw, upd]
          · have hl :
                (resolveBet gameType betChoice betAmount wheel flip).2.1
                  = .loss := by
              cases hc :
                (resolveBet gameType betChoice betAmount wheel flip).2.1 <;>
                simp_all
            have hz := resolveBet_loss_payout gameType betChoice betAmount
              wheel flip hl
            simp [hw, hz, upd]
        · by_cases hw :
            (resolveBet gameType betChoice betAmount wheel flip).2.1 = .win <;>
            simp [hw]
        · intro hlo
          exact resolveBet_loss_payout gameType betChoice betAmount wheel flip
            hlo
  · intro betAmount target direction roll r st' hb h
    unfold dicePlay at h
    split at h
    · simp at h
    next hvalid =>
      dsimp only at h
      rw [hb] at h
      simp only [Option.getD_some] at h
      split at h
      · simp at h
      next hlt =>
        simp only [Prod.mk.injEq, Except.ok.injEq] at h
        obtain ⟨h1, h2⟩ := h
        subst h1
        subst h2
        cases direction with
        | over =>
          by_cases hw : target < (roll : ℚ)
          · exact ⟨by simp [hw, upd], by simp [hw], by simp [hw]⟩
          · exact ⟨by simp [hw, upd], by simp [hw], by simp [hw]⟩
        | under =>
          by_cases hw : (roll : ℚ) < target
          · exact ⟨by simp [hw, upd], by simp [hw], by simp [hw]⟩
          · exact ⟨by simp [hw, upd], by simp [hw], by simp [hw]⟩
  · intro betAmount r0 st1 ds st2 hb hstart hrun
    obtain ⟨b0x, hbx, hvx, hltx, hrx, hst1⟩ := towerStart_ok_inv hstart
    rw [hb] at hbx
    injection hbx with hbb
    subst hbb
    subst hst1
    have hinv := towerWinsRun_ok_inv uid betAmount (b0 - betAmount) ds _ st2
      (upd_self _ _ _) ⟨_, upd_self _ _ _, rfl, rfl⟩ hrun
    obtain ⟨hbal2, hbets2, g2, hg2, ha2, hbet2⟩ := hinv
    constructor
    · intro d r st3 h
      obtain ⟨g3, hg3, ha3, hl3, hr3, hst3⟩ := towerPlay_loss_inv h
      rw [hg2] at hg3
      injection hg3 with hgg
      subst hgg
      subst hst3
      exact ⟨hbal2, by simp [hbet2]⟩
    · intro r st3 h
      obtain ⟨g3, hg3, ha3, hr3, hst3⟩ := towerCashout_ok_inv h
      rw [hg2] at hg3
      injection hg3 with hgg
      subst hgg
      subst hst3
      subst hr3
      exact ⟨by simp [upd, hbal2], by simp [hbet2]⟩
  · intro betAmount rawCrash now0 r0 st1 hb hstart
    obtain ⟨hr0, hst1⟩ := crashStart_ok_inv hstart
    subst hst1
    refine ⟨?_, ?_, ?_, ?_⟩
    · intro now m ba pp stt st2 h
      exact crashStatus_active_eq h
    · intro now cp p st2 h
      obtain ⟨g, hg, ha, hcp, hp, hst2⟩ := crashCashout_crashed_inv h
      have hGG :
          some (⟨betAmount, now0, min (max (101/100) rawCrash) 1000,
            true, false, none⟩ : CrashGame) = some g :=
        (upd_self st.crashGames uid _).symm.trans hg
      injection hGG with hGg
      subst hGg
      subst hst2
      exact ⟨hp, by simp [upd, hb], by simp⟩
    · intro now m p cp st2 h
      obtain ⟨g, hg, ha, hm, hp, hcp, hst2⟩ := crashCashout_won_inv h
      have hGG :
          some (⟨betAmount, now0, min (max (101/100) rawCrash) 1000,
            true, false, none⟩ : CrashGame) = some g :=
        (upd_self st.crashGames uid _).symm.trans hg
      injection hGG with hGg
      subst hGg
      subst hst2
      constructor
      · rw [hp]
        simp [upd, hb]
      · simp [hp]
    · intro now cp st2 h
      obtain ⟨g, hg, ha, hcp, hst2⟩ := crashStatus_crashed_inv h
      have hGG :
          some (⟨betAmount, now0, min (max (101/100) rawCrash) 1000,
            true, false, none⟩ : CrashGame) = some g :=
        (upd_self st.crashGames uid _).symm.trans hg
      injection hGG with hGg
      subst hGg
      subst hst2
      exact ⟨by simp [upd, hb], by simp⟩
  · intro betAmount mc pos r0 st1 ts st2 hb hstart hrun
    obtain ⟨hr0, hst1⟩ := minesStart_ok_inv hstart
    subst hst1
    have hled := minesSafeRun_ledger_inv uid betAmount ts _ st2
      ⟨betAmount, mc, 25, pos, [], true, 1⟩ (upd_self _ _ _) rfl rfl hrun
    obtain ⟨hbalp, hbetsp, g2, hg2, ha2, hbet2⟩ := hled
    have hbal2 : st2.balances uid = some (b0 - betAmount) := by
      rw [hbalp]
      simp [upd, hb]
    refine ⟨hbal2, by rw [hbetsp], ?_, ?_⟩
    · intro t x y z st3 h
      obtain ⟨g, hg, ha, hst3⟩ := minesReveal_mine_inv h
      have hGG := hg2.symm.trans hg
      injection hGG with hGg
      subst hGg
      subst hst3
      exact ⟨hbal2, by simp [hbet2]⟩
    · intro r st3 h
      obtain ⟨g, hg, ha, hr, hst3⟩ := minesCashout_ok_inv h
      have hGG := hg2.symm.trans hg
      injection hGG with hGg
      subst hGg
      subst hst3
      subst hr
      exact ⟨by simp [upd, hbal2, hbet2], by simp [hbet2]⟩

/-- C3 witness: a losing coin flip (spec scenario: balance 100, bet 20,
forced tails against heads), a winning dice play (bet 10, over 50, roll 80,
payout 20), a tower start followed by an immediate cashout, a crash session
(bet 10, crash point 2) cashed out at multiplier 1.5, crashed via a status
poll, and left untouched by a non-settling poll, and a mines session (bet
10, 5 mines) cashed out after one safe reveal or lost on a mine hit. -/
theorem C3_settlement_balance_identity_witness :
    (placeBet exState0 "u" "coinflip" 20 "heads" 0 .tails).2.balances "u"
      = some (100 - 20 + 0) ∧
    (placeBet exState0 "u" "coinflip" 20 "heads" 0 .tails).2.bets.head?
      = some ⟨"u", "coinflip", 20, .loss, 0⟩ ∧
    (dicePlay exState0 "u" 10 50 .over 80).2.balances "u"
      = some (100 - 10 + 20) ∧
    (towerCashout (towerStart exState0 "u" 10).2 "u").2.balances "u"
      = some (100 - 10 + 10) ∧
    (crashCashout (crashStart exState0 "u" 10 2 0).2 "u" 5000).2.balances "u"
      = some (100 - 10 + 15) ∧
    (crashCashout (crashStart exState0 "u" 10 2 0).2 "u" 5000).2.bets.head?
      = some ⟨"u", "crash", 10, .win, 15⟩ ∧
    (crashStatus (crashStart exState0 "u" 10 2 0).2 "u" 20000).2.balances "u"
      = some (100 - 10) ∧
    (crashStatus (crashStart exState0 "u" 10 2 0).2 "u" 20000).2.bets.head?
      = some ⟨"u", "crash", 10, .loss, 0⟩ ∧
    (crashStatus (crashStart exState0 "u" 10 2 0).2 "u" 1000).2
      = (crashStart exState0 "u" 10 2 0).2 ∧
    (minesCashout ((minesSafeRun "u"
        (minesStart exState0 "u" 10 5 [0, 1, 2, 3, 4]).2 [12]).getD
        emptyState) "u").2.balances "u"
      = some (100 - 10 + 25/2) ∧
    (minesReveal ((minesSafeRun "u"
        (minesStart exState0 "u" 10 5 [0, 1, 2, 3, 4]).2 [12]).getD
        emptyState) "u" 3).2.bets.head?
      = some ⟨"u", "mines", 10, .loss, 0⟩ := by
  have hne1 : ("coinflip" : String) = "roulette" ↔ False := by
    simp only [iff_false]
    decide
  have hne2 : ("tails" : String) = "heads" ↔ False := by
    simp only [iff_false]
    decide
  have h := C3_settlement_balance_identity exState0 "u" 100
  have hr1 : (placeBet exState0 "u" "coinflip" 20 "heads" 0 .tails).1
      = .ok ⟨"tails", .loss, 0⟩ := by
    norm_num [placeBet, resolveBet, coinSideName, exState0, upd, hne1, hne2]
    all_goals decide
  have hp := h.1 "coinflip" 20 "heads" 0 .tails ⟨"tails", .loss, 0⟩ _ rfl
    (by rw [← hr1])
  have hr2 : (dicePlay exState0 "u" 10 50 .over 80).1
      = .ok ⟨80, true, 20, 50, .over⟩ := by
    norm_num [dicePlay, diceValid, validBetAmount, exState0, upd]
  have hd := h.2.1 10 50 .over 80 ⟨80, true, 20, 50, .over⟩ _ rfl
    (by rw [← hr2])
  have hr3 : (towerStart exState0 "u" 10).1 = .ok ⟨0, 1, 10⟩ := by
    norm_num [towerStart, validBetAmount, exState0, upd]
  have hr4 : (towerCashout (towerStart exState0 "u" 10).2 "u").1
      = .ok ⟨10, 0, 1⟩ := by
    norm_num [towerCashout, towerStart, validBetAmount, exState0, upd]
  have ht := (h.2.2.1 10 ⟨0, 1, 10⟩ _ [] _ rfl (by rw [← hr3]) rfl).2
    ⟨10, 0, 1⟩ _ (by rw [← hr4])
  have hcs : (crashStart exState0 "u" 10 2 0).1 = .ok ⟨0, 10⟩ := by
    norm_num [crashStart, validBetAmount, exState0, upd]
  have hcrash := h.2.2.2.1 10 2 0 ⟨0, 10⟩ _ rfl (by rw [← hcs])
  have hcw : (crashCashout (crashStart exState0 "u" 10 2 0).2 "u" 5000).1
      = .ok (.won (3/2) 15 2) := by
    norm_num [crashCashout, crashStart, validBetAmount, exState0, upd]
  have hB12 := hcrash.2.2.1 5000 (3/2) 15 2 _ (by rw [← hcw])
  have hcr : (crashStatus (crashStart exState0 "u" 10 2 0).2 "u" 20000).1
      = .crashed 2 := by
    norm_num [crashStatus, crashStart, validBetAmount, exState0, upd]
  have hB34 := hcrash.2.2.2 20000 2 _ (by rw [← hcr])
  have hca : (crashStatus (crashStart exState0 "u" 10 2 0).2 "u" 1000).1
      = .active (11/10) 10 11 0 := by
    norm_num [crashStatus, crashStart, validBetAmount, exState0, upd]
  have hB5 := hcrash.1 1000 (11/10) 10 11 0 _ (by rw [← hca])
  have hms : (minesStart exState0 "u" 10 5 [0, 1, 2, 3, 4]).1
      = .ok ⟨25, 5, 10⟩ := by
    norm_num [minesStart, validBetAmount, exState0, upd]
  have hsM : (minesSafeRun "u"
      (minesStart exState0 "u" 10 5 [0, 1, 2, 3, 4]).2 [12]).isSome
      = true := by
    norm_num [minesSafeRun, minesReveal, minesStart, validBetAmount,
      exState0, upd]
  obtain ⟨x, hx⟩ := Option.isSome_iff_exists.1 hsM
  have h2m : minesSafeRun "u" (minesStart exState0 "u" 10 5 [0, 1, 2, 3, 4]).2
      [12] = some ((minesSafeRun "u"
        (minesStart exState0 "u" 10 5 [0, 1, 2, 3, 4]).2 [12]).getD
        emptyState) := by
    rw [hx]
    simp
  have hmines := h.2.2.2.2 10 5 [0, 1, 2, 3, 4] ⟨25, 5, 10⟩ _ [12] _ rfl
    (by rw [← hms]) h2m
  have hmc : (minesCashout ((minesSafeRun "u"
      (minesStart exState0 "u" 10 5 [0, 1, 2, 3, 4]).2 [12]).getD
      emptyState) "u").1 = .ok ⟨25/2, 5/4⟩ := by
    norm_num [minesCashout, minesSafeRun, minesReveal, minesStart,
      validBetAmount, exState0, upd]
  have hC1 := hmines.2.2.2 ⟨25/2, 5/4⟩ _ (by rw [← hmc])
  have hmr : (minesReveal ((minesSafeRun "u"
      (minesStart exState0 "u" 10 5 [0, 1, 2, 3, 4]).2 [12]).getD
      emptyState) "u" 3).1 = .ok (.mine 3 [0, 1, 2, 3, 4] 0) := by
    norm_num [minesReveal, minesSafeRun, minesStart, validBetAmount,
      exState0, upd]
  have hC2 := hmines.2.2.1 3 3 [0, 1, 2, 3, 4] 0 _ (by rw [← hmr])
  exact ⟨hp.1, hp.2.1, hd.1, ht.1, hB12.1, hB12.2, hB34.1, hB34.2, hB5,
    hC1.1, hC2.2⟩
